import Mathlib

/-!
Verification of the claim-verification pipeline ("chase the source").

The Python sources under src/ are shallowly embedded here:
  - schemas/models.py     : the data model (Pydantic models become structures,
                            Pydantic validation becomes Option-returning smart
                            constructors);
  - nodes/evidence_filter.py, nodes/source_comparer.py,
    nodes/source_retriever.py, nodes/claim_extractor.py,
    nodes/attribution_assembler.py : the five pipeline nodes;
  - graph.py              : the pipeline controller (run_source_check).

External collaborators (the OpenAI completion service, the Tavily search
provider) are modelled as oracle values passed in: each call site receives
an `Except String r` value, `Except.error e` standing for a raised
exception / schema-validation failure with message `e`, exactly the cases
the Python code catches.  Floating point relevance scores are embedded as
rationals; the only comparisons the code performs are against 0.5 and the
token-overlap test against 0.6, both exact at the small fractions involved.
-/

/-! ### Enums (schemas/models.py) -/

/-- SourceType enum from schemas/models.py. -/
inductive SourceType where
  | primary
  | original_reporting
  | secondary
  | unknown
deriving DecidableEq, Repr, BEq

/-- AttributionType enum from schemas/models.py. -/
inductive AttributionType where
  | direct
  | paraphrase
  | contradiction
  | not_found
deriving DecidableEq, Repr, BEq

/-- The Literal type for per-source attribution in EvidenceAssessment
(schemas/models.py restricts it to direct / paraphrase / contradiction). -/
inductive Attribution3 where
  | direct
  | paraphrase
  | contradiction
deriving DecidableEq, Repr, BEq

/-- Literal type for extraction confidence. -/
inductive Confidence where
  | high
  | medium
  | low
deriving DecidableEq, Repr, BEq

/-! ### Python string primitives used by the nodes

All string manipulation is carried out on the underlying character
lists (the embedding never relies on byte positions), matching Python
semantics on the ASCII texts the pipeline handles. -/

/-- Python `str.lower()` on a character (ASCII range, as exercised by the
pipeline's inputs). -/
def lowerChar (c : Char) : Char :=
  if 'A' ≤ c ∧ c ≤ 'Z' then Char.ofNat (c.toNat + 32) else c

/-- Python `s.lower()`. -/
def strLower (s : String) : String :=
  String.mk (s.data.map lowerChar)

/-- Python `s.strip()`: drop whitespace from both ends. -/
def strTrim (s : String) : String :=
  String.mk (((s.data.dropWhile Char.isWhitespace).reverse.dropWhile Char.isWhitespace).reverse)

/-- Containment of one character list in another as a contiguous run. -/
def listHasInfix (hay sub : List Char) : Bool :=
  match hay with
  | [] => sub.isEmpty
  | _ :: t => sub.isPrefixOf hay || listHasInfix t sub

/-- Python `sub in hay` on strings: substring containment. -/
def strContains (hay sub : String) : Bool :=
  listHasInfix hay.data sub.data

/-- Python `s.endswith(t)`. -/
def strEndsWith (s t : String) : Bool :=
  t.data.isSuffixOf s.data

/-- Python `s.startswith(t)`. -/
def strStartsWith (s t : String) : Bool :=
  t.data.isPrefixOf s.data

/-- Helper of `pySplit`: split a character list on whitespace runs,
accumulating the current (reversed) token. -/
def splitWsAux : List Char → List Char → List (List Char)
  | [], acc => if acc.isEmpty then [] else [acc.reverse]
  | c :: cs, acc =>
    if c.isWhitespace then
      if acc.isEmpty then splitWsAux cs [] else acc.reverse :: splitWsAux cs []
    else splitWsAux cs (c :: acc)

/-- Python `s.split()` with no arguments: split on whitespace runs,
dropping empty pieces. -/
def pySplit (s : String) : List String :=
  (splitWsAux s.data []).map String.mk

/-- The rational one half, the 0.5 relevance threshold of
assess_and_classify (built with the raw constructor so that the kernel
can evaluate comparisons against it). -/
def halfQ : ℚ := ⟨1, 2, by decide, Nat.coprime_one_left 2⟩

/-- Python `a or b` for an optional string `a`: `b` when `a` is None or
empty (falsy), `a` otherwise. -/
def pyOrStr (a : Option String) (b : String) : String :=
  match a with
  | some s => if s = "" then b else s
  | none => b

/-! ### Data model (schemas/models.py) -/

/-- SearchResult from schemas/models.py (a validated Tavily result). -/
structure SearchResult where
  url : String
  title : String
  content : String
  score : ℚ
  published_date : Option String
  raw_content : Option String
deriving DecidableEq, Repr

/-- ExtractedClaim from schemas/models.py. -/
structure ExtractedClaim where
  claim : String
  original_context : String
  extraction_confidence : Confidence
  extraction_notes : Option String
deriving DecidableEq, Repr

/-- Evidence from schemas/models.py.  Pydantic enforces
`verbatim_quote` min_length 10 and `relevance_score` in `[0,1]`; those
checks live in `mkEvidence` below. -/
structure Evidence where
  source_url : String
  source_title : String
  source_type : SourceType
  verbatim_quote : String
  relevance_score : ℚ
  relevance_explanation : String
deriving DecidableEq, Repr

/-- Pydantic validation of Evidence construction: `verbatim_quote` has
min_length 10 and `relevance_score` is in `[0,1]`; a violation raises
ValidationError, which `assess_and_classify` catches (returns None). -/
def mkEvidence (url title : String) (st : SourceType) (quote : String)
    (score : ℚ) (expl : String) : Option Evidence :=
  if 10 ≤ quote.length ∧ 0 ≤ score ∧ score ≤ 1 then
    some ⟨url, title, st, quote, score, expl⟩
  else
    none

/-- EvidenceAssessment from schemas/models.py. -/
structure EvidenceAssessment where
  evidence : Evidence
  attribution : Attribution3
  reasoning : String
deriving DecidableEq, Repr

/-- EvidenceRelevanceResponse from schemas/models.py (structured LLM
output for the relevance chain). -/
structure EvidenceRelevanceResponse where
  is_relevant : Bool
  relevance_score : ℚ
  verbatim_quote : Option String
  relevance_explanation : String
deriving DecidableEq, Repr

/-- SourceClassificationResponse from schemas/models.py (structured LLM
output for the classification chain). -/
structure SourceClassificationResponse where
  source_type : SourceType
  reasoning : String
deriving DecidableEq, Repr

/-- SourceAttributionResponse from schemas/models.py (structured LLM
output for the per-source comparison chain). -/
structure SourceAttributionResponse where
  attribution : Attribution3
  reasoning : String
deriving DecidableEq, Repr

/-- SourceAttribution from schemas/models.py, the final Verdict.  Pydantic
enforces `summary` max_length 500 and `evidence_list` max_length 5; those
checks live in `mkSourceAttribution` below. -/
structure SourceAttribution where
  claim : String
  attribution : AttributionType
  summary : String
  evidence_list : List EvidenceAssessment
  best_source : Option EvidenceAssessment
  relies_on_secondary_only : Bool
deriving DecidableEq, Repr

/-- Pydantic validation of SourceAttribution construction: `summary` has
max_length 500 and `evidence_list` has max_length 5; a violation raises
ValidationError at the construction site. -/
def mkSourceAttribution (claim : String) (attr : AttributionType)
    (summary : String) (evl : List EvidenceAssessment)
    (best : Option EvidenceAssessment) (rso : Bool) : Option SourceAttribution :=
  if summary.length ≤ 500 ∧ evl.length ≤ 5 then
    some ⟨claim, attr, summary, evl, best, rso⟩
  else
    none

/-- GraphState from schemas/models.py (the LangGraph state dictionary,
plus the `input_source_url` key that graph.py threads through it). -/
structure GraphState where
  input_text : String
  input_source_url : Option String
  extracted_claim : Option ExtractedClaim
  extraction_failed : Bool
  extraction_error : Option String
  search_results : List SearchResult
  search_query : Option String
  evidence : List Evidence
  assessments : List EvidenceAssessment
  result : Option SourceAttribution
  errors : List String
deriving DecidableEq, Repr

/-! ### Evidence Gate (nodes/evidence_filter.py) -/

/-- The content the quote-integrity check runs against, from
`source_text = (result.raw_content or result.content or "").lower()`
in assess_and_classify (before the final lowering). -/
def sourceText (r : SearchResult) : String :=
  pyOrStr r.raw_content (pyOrStr (some r.content) "")

/-- The quote-integrity test of assess_and_classify, on a non-empty quote
`q` and the already-lowercased source text: accept when the stripped,
lowercased quote is an exact substring, otherwise when at least 60% of the
quote's whitespace tokens are members of the content's token list
(`sum(1 for t in q_tokens if t in source_text.split()) / len(q_tokens)`,
compared with 0.6 exactly, rendered as `3 * len ≤ 5 * count`). -/
def quoteSurvives (q srcLowered : String) : Bool :=
  let nq := strLower (strTrim q)
  if strContains srcLowered nq then true
  else
    let qts := pySplit nq
    if qts.isEmpty then false
    else decide (3 * qts.length ≤ 5 * (qts.countP (fun t => (pySplit srcLowered).contains t)))

/-- The quote rewrite of assess_and_classify: `if quote:` skips the whole
integrity check for a falsy (None or empty) quote; otherwise the quote is
kept exactly when it survives, and set to None when it does not. -/
def checkedQuote (quote : Option String) (srcLowered : String) : Option String :=
  match quote with
  | none => none
  | some q =>
    if q = "" then some q
    else if quoteSurvives q srcLowered then some q else none

/-- assess_and_classify from nodes/evidence_filter.py.  The two oracle
arguments are the structured responses of the relevance chain and the
classification chain for this candidate (`Except.error` when the call
raises); the claim text only feeds the prompts, and any exception in the
body (including Pydantic validation of Evidence) yields None. -/
def assess_and_classify (rel : Except String EvidenceRelevanceResponse)
    (cls : Except String SourceClassificationResponse)
    (claim : String) (result : SearchResult) : Option Evidence :=
  match rel, cls with
  | Except.ok rr, Except.ok cc =>
    if rr.is_relevant = false then none
    else if rr.relevance_score < halfQ then none
    else
      let srcLowered := strLower (sourceText result)
      match checkedQuote rr.verbatim_quote srcLowered with
      | none => none
      | some q =>
        if q = "" then none
        else mkEvidence result.url result.title cc.source_type q
          rr.relevance_score rr.relevance_explanation
  | _, _ => none

/-- One step of Python's stable `list.sort(key=relevance_score, reverse=True)`:
insert an element into an already sorted-descending list, after every
element with a strictly greater or equal score that is already there
(equal keys keep their original relative order). -/
def insertDesc (x : Evidence) : List Evidence → List Evidence
  | [] => [x]
  | y :: ys =>
    if y.relevance_score ≤ x.relevance_score then x :: y :: ys
    else y :: insertDesc x ys

/-- The stable descending sort performed by
`evidence_list.sort(key=lambda e: e.relevance_score, reverse=True)` in
filter_evidence_async. -/
def sortDesc : List Evidence → List Evidence
  | [] => []
  | x :: xs => insertDesc x (sortDesc xs)

/-- The per-candidate fan-out of filter_evidence_async: one
assess_and_classify task per search result, results collected in task
(i.e. candidate) order.  The oracle functions give each task's two
structured-completion outcomes by candidate index. -/
def assessAll (rel : Nat → Except String EvidenceRelevanceResponse)
    (cls : Nat → Except String SourceClassificationResponse)
    (claim : String) : Nat → List SearchResult → List (Option Evidence)
  | _, [] => []
  | i, r :: rs =>
    assess_and_classify (rel i) (cls i) claim r :: assessAll rel cls claim (i + 1) rs

/-- The admitted evidence in original candidate order (the
`[e for e in evidence_results if e is not None]` list of
filter_evidence_async, before sorting and truncation). -/
def admittedEvidence (rel : Nat → Except String EvidenceRelevanceResponse)
    (cls : Nat → Except String SourceClassificationResponse)
    (s : GraphState) : List Evidence :=
  match s.extracted_claim with
  | none => []
  | some c =>
    if s.search_results = [] then []
    else (assessAll rel cls c.claim 0 s.search_results).filterMap id

/-- filter_evidence / filter_evidence_async from nodes/evidence_filter.py:
empty output when there is no claim or no search results, otherwise the
admitted evidence sorted descending by relevance score (stable) and
truncated to the top 5. -/
def filter_evidence (rel : Nat → Except String EvidenceRelevanceResponse)
    (cls : Nat → Except String SourceClassificationResponse)
    (s : GraphState) : GraphState :=
  match s.extracted_claim with
  | none => { s with evidence := [] }
  | some c =>
    if s.search_results = [] then { s with evidence := [] }
    else
      let evs := (assessAll rel cls c.claim 0 s.search_results).filterMap id
      { s with evidence := (sortDesc evs).take 5 }

/-! ### Source Comparer (nodes/source_comparer.py) -/

/-- classify_source_attribution_async: a per-evidence completion call; a
raised exception is caught and the item dropped (None). -/
def classifyOne (cmp : Except String SourceAttributionResponse)
    (ev : Evidence) : Option EvidenceAssessment :=
  match cmp with
  | Except.ok r => some ⟨ev, r.attribution, r.reasoning⟩
  | Except.error _ => none

/-- The per-evidence fan-out of compare_sources_async, collected in
evidence order. -/
def compareAll (cmp : Nat → Except String SourceAttributionResponse) :
    Nat → List Evidence → List (Option EvidenceAssessment)
  | _, [] => []
  | i, e :: es => classifyOne (cmp i) e :: compareAll cmp (i + 1) es

/-- compare_sources / compare_sources_async from nodes/source_comparer.py. -/
def compare_sources (cmp : Nat → Except String SourceAttributionResponse)
    (s : GraphState) : GraphState :=
  match s.extracted_claim with
  | none => { s with assessments := [] }
  | some _ =>
    if s.evidence = [] then { s with assessments := [] }
    else { s with assessments := (compareAll cmp 0 s.evidence).filterMap id }

/-! ### Attribution Assembler (nodes/attribution_assembler.py) -/

/-- The type priority of find_best_source. -/
def typeScore : SourceType → Nat
  | SourceType.primary => 3
  | SourceType.original_reporting => 2
  | SourceType.secondary => 1
  | SourceType.unknown => 0

/-- The attribution priority of find_best_source. -/
def attrScore : Attribution3 → Nat
  | Attribution3.direct => 2
  | Attribution3.paraphrase => 1
  | Attribution3.contradiction => 0

/-- The score tuple of find_best_source. -/
def scoreOf (a : EvidenceAssessment) : Nat × Nat :=
  (typeScore a.evidence.source_type, attrScore a.attribution)

/-- Python tuple comparison `p > q` for pairs of naturals (lexicographic,
first component first). -/
def tupleGt (p q : Nat × Nat) : Bool :=
  decide (q.1 < p.1) || (decide (p.1 = q.1) && decide (q.2 < p.2))

/-- find_best_source from nodes/attribution_assembler.py: Python
`max(assessments, key=score)`, which scans left to right and replaces the
current best only on a strictly greater key, so the earliest maximal
element wins; None on the empty list. -/
def find_best_source : List EvidenceAssessment → Option EvidenceAssessment
  | [] => none
  | x :: xs =>
    some (xs.foldl (fun best y => if tupleGt (scoreOf y) (scoreOf best) then y else best) x)

/-- The parsed JSON object of the assembly completion call.  A missing
key is None (`llm_result["attribution"]` / `llm_result["summary"]` raise
KeyError on None here, caught by the except); `relies_on_secondary_only`
is read with `.get(..., False)`.  `attribution` is kept as a raw string
because `AttributionType(...)` can raise ValueError. -/
structure AssemblyJson where
  attribution : Option String
  summary : Option String
  relies_on_secondary_only : Option Bool
deriving DecidableEq, Repr

/-- The AttributionType constructor applied to a raw string
(`AttributionType(llm_result["attribution"])`), None modelling the raised
ValueError. -/
def parseAttributionType (s : String) : Option AttributionType :=
  if s = "direct" then some AttributionType.direct
  else if s = "paraphrase" then some AttributionType.paraphrase
  else if s = "contradiction" then some AttributionType.contradiction
  else if s = "not_found" then some AttributionType.not_found
  else none

/-- Modelled text of the Pydantic ValidationError raised while
constructing SourceAttribution with an over-long summary.  The real text
is input-dependent and embeds the offending value, so it grows with the
summary; the model keeps that growth (a fixed preamble plus the summary,
sans the exact Pydantic layout), because the fallback handler re-embeds
this text in a summary that is itself cap-checked — its length decides
whether the fallback raises in turn. -/
def validationErrText (summary : String) : String :=
  "validation error for SourceAttribution summary " ++ summary

/-- The ValueError text of `AttributionType(value)` on an invalid string
value: CPython's enum raises with a message embedding the full raw value
(`ValueError: <repr of value> is not a valid AttributionType`, modelled
here without the repr quotes).  Its length therefore grows with the
value the completion service returned. -/
def enumValueErrMsg (v : String) : String :=
  v ++ " is not a valid AttributionType"

/-- Modelled message of the KeyError raised by
`llm_result["attribution"]` / `llm_result["summary"]` when the assembly
JSON lacks the key, or the ValueError of `AttributionType(None)` when
the key holds null.  These real texts are fixed and short (the key name,
or `None is not a valid AttributionType`), never input-dependent, so a
constant is faithful here. -/
def assemblyJsonErrMsg : String := "assembly response missing required field"

/-- Modelled message of the AttributeError raised by `claim.claim` when
the state carries no extracted claim in the synthesis branch (raised both
inside the try block and again in the except handler, hence uncaught). -/
def attributeErrMsg : String := "AttributeError: claim is None"

/-- Python `a or b` applied to the optional extraction error
(`state.get("extraction_error") or default`). -/
def pyOrDefault (o : Option String) (d : String) : String :=
  pyOrStr o d

/-- The `all(...)` check of assemble_attribution: every assessment's
evidence is a secondary source. -/
def reliesOnSecondaryLocal (assessments : List EvidenceAssessment) : Bool :=
  assessments.all (fun a => decide (a.evidence.source_type = SourceType.secondary))

/-- assemble_attribution from nodes/attribution_assembler.py.  The
result is `Except.error` exactly when the Python function raises to its
caller (an uncaught Pydantic ValidationError from SourceAttribution
construction, or the AttributeError of a missing claim in the synthesis
branch); every handled failure lands in the fallback verdict. -/
def assemble_attribution (asm : Except String AssemblyJson)
    (s : GraphState) : Except String GraphState :=
  if s.extraction_failed then
    match mkSourceAttribution "[No factual claim could be extracted]"
        AttributionType.not_found
        (pyOrDefault s.extraction_error
          "Could not extract a verifiable factual claim from the input.")
        [] none false with
    | some r => Except.ok { s with result := some r }
    | none => Except.error (validationErrText (pyOrDefault s.extraction_error
        "Could not extract a verifiable factual claim from the input."))
  else if s.assessments = [] then
    match mkSourceAttribution
        (match s.extracted_claim with
         | some c => c.claim
         | none => "[Unknown]")
        AttributionType.not_found
        "No relevant sources were found that address this claim."
        [] none false with
    | some r => Except.ok { s with result := some r }
    | none => Except.error (validationErrText
        "No relevant sources were found that address this claim.")
  else
    let relies := reliesOnSecondaryLocal s.assessments
    let best := find_best_source s.assessments
    match s.extracted_claim with
    | none => Except.error attributeErrMsg
    | some c =>
      let fallback := fun (e : String) =>
        match mkSourceAttribution c.claim AttributionType.not_found
            ("An error occurred while assembling the attribution: " ++ e)
            s.assessments best relies with
        | some r =>
          Except.ok { s with result := some r,
                             errors := s.errors ++ ["Attribution assembly: " ++ e] }
        | none => Except.error (validationErrText
            ("An error occurred while assembling the attribution: " ++ e))
      match asm with
      | Except.error e => fallback e
      | Except.ok j =>
        match j.attribution, j.summary with
        | some astr, some summ =>
          match parseAttributionType astr with
          | none => fallback (enumValueErrMsg astr)
          | some att =>
            match mkSourceAttribution c.claim att summ s.assessments best
                (relies || (j.relies_on_secondary_only.getD false)) with
            | some r => Except.ok { s with result := some r }
            | none => fallback (validationErrText summ)
        | _, _ => fallback assemblyJsonErrMsg

/-! ### Claim Extractor (nodes/claim_extractor.py) -/

/-- The parsed JSON object of the extraction completion call
(`json.loads(response.choices[0].message.content)`): the flag is read
with `.get("extraction_failed", False)`, the notes with
`.get("extraction_notes")`; the remaining keys raise (inside the try
block) when missing or of the wrong shape, modelled as None. -/
structure ExtractionJson where
  extraction_failed : Bool
  extraction_notes : Option String
  claim : Option String
  original_context : Option String
  extraction_confidence : Option Confidence
deriving DecidableEq, Repr

/-- Modelled message of the KeyError / Pydantic ValidationError raised
inside the try block of extract_claim when the parsed response lacks a
usable claim, context or confidence. -/
def extractionShapeErrMsg : String := "extraction response missing required field"

/-- extract_claim from nodes/claim_extractor.py.  `Except.error e` on the
oracle models the completion call raising (or its content failing
json.loads) with message `e`; every failure mode is absorbed into
extraction_failed = true. -/
def extract_claim (o : Except String ExtractionJson) (s : GraphState) : GraphState :=
  match o with
  | Except.error e =>
    { s with extracted_claim := none,
             extraction_failed := true,
             extraction_error := some e,
             errors := s.errors ++ ["Claim extraction: " ++ e] }
  | Except.ok j =>
    if j.extraction_failed then
      { s with extracted_claim := none,
               extraction_failed := true,
               extraction_error := j.extraction_notes }
    else
      match j.claim, j.original_context, j.extraction_confidence with
      | some cl, some oc, some conf =>
        { s with extracted_claim := some ⟨cl, oc, conf, j.extraction_notes⟩,
                 extraction_failed := false,
                 extraction_error := none }
      | _, _, _ =>
        { s with extracted_claim := none,
                 extraction_failed := true,
                 extraction_error := some extractionShapeErrMsg,
                 errors := s.errors ++ ["Claim extraction: " ++ extractionShapeErrMsg] }

/-! ### Source Retriever (nodes/source_retriever.py) -/

/-- A raw Tavily result item (a JSON dictionary): `item["url"]` raises
KeyError when missing (None here); the other keys are read with
`.get(...)` defaults. -/
structure RawResult where
  url : Option String
  title : String
  content : String
  score : ℚ
  published_date : Option String
  raw_content : Option String
deriving DecidableEq, Repr

/-- Position after the first "://" separator of a URL, if any. -/
def afterSchemeSep : List Char → Option (List Char)
  | [] => none
  | c :: cs =>
    if ([':', '/', '/']).isPrefixOf (c :: cs) then some (cs.drop 2)
    else afterSchemeSep cs

/-- Modelled `urllib.parse.urlparse(url).hostname` for the simple
absolute URLs the pipeline handles: the text between the first "://" and
the next delimiter, lowercased; None when the URL has no scheme separator
or an empty host. -/
def urlHostname (url : String) : Option String :=
  match afterSchemeSep url.data with
  | none => none
  | some rest =>
    let h := rest.takeWhile (fun c => c ≠ '/' && c ≠ ':' && c ≠ '?' && c ≠ '#')
    if h.isEmpty then none else some (strLower (String.mk h))

/-- Modelled Pydantic validation of SearchResult construction
(`HttpUrl` needs an http(s) scheme and a host, `score` must lie in
`[0,1]`); a violation raises inside the per-item try block and the item
is skipped. -/
def mkSearchResult (u : String) (it : RawResult) : Option SearchResult :=
  if (strStartsWith u "http://" || strStartsWith u "https://")
      ∧ (urlHostname u).isSome ∧ 0 ≤ it.score ∧ it.score ≤ 1 then
    some ⟨u, it.title, it.content, it.score, it.published_date, it.raw_content⟩
  else
    none

/-- The self-citation test of retrieve_sources:
`if excluded_host and hostname.lower().endswith(excluded_host)`. -/
def selfDrop (excluded : Option String) (u : String) : Bool :=
  match excluded with
  | some eh => eh ≠ "" && strEndsWith (strLower ((urlHostname u).getD "")) eh
  | none => false

/-- The result loop of retrieve_sources: per item, a missing url key
raises (skip); a url already in `seen` is skipped; the url is then added
to `seen`; a hostname ending in the excluded host is skipped; a
SearchResult validation error is skipped; everything else is kept in
provider order. -/
def processResults (excluded : Option String) :
    List RawResult → List String → List SearchResult
  | [], _ => []
  | it :: rest, seen =>
    match it.url with
    | none => processResults excluded rest seen
    | some u =>
      if seen.contains u then processResults excluded rest seen
      else if selfDrop excluded u then processResults excluded rest (u :: seen)
      else
        match mkSearchResult u it with
        | some r => r :: processResults excluded rest (u :: seen)
        | none => processResults excluded rest (u :: seen)

/-- retrieve_sources from nodes/source_retriever.py.  The oracle is the
Tavily response (`Except.error` = the search call raising). -/
def retrieve_sources (search : Except String (List RawResult))
    (s : GraphState) : GraphState :=
  match s.extracted_claim with
  | none => { s with search_results := [], search_query := none }
  | some c =>
    let excluded : Option String :=
      match s.input_source_url with
      | none => none
      | some u => if u = "" then none else (urlHostname u).map strLower
    match search with
    | Except.error e =>
      { s with search_results := [],
               search_query := some c.claim,
               errors := s.errors ++ ["Source retrieval: " ++ e] }
    | Except.ok items =>
      { s with search_results := processResults excluded items [],
               search_query := some c.claim }

/-! ### Pipeline controller (graph.py) -/

/-- The external-service outcomes of one pipeline run: the extraction
call, the Tavily search, the two per-candidate Evidence Gate chains
(indexed by candidate position), the per-evidence comparison chain
(indexed by evidence position), and the final assembly call. -/
structure Oracles where
  extraction : Except String ExtractionJson
  search : Except String (List RawResult)
  relevance : Nat → Except String EvidenceRelevanceResponse
  classification : Nat → Except String SourceClassificationResponse
  comparison : Nat → Except String SourceAttributionResponse
  assembly : Except String AssemblyJson

/-- The initial state built by run_source_check in graph.py. -/
def initialState (input_text : String) (input_source_url : Option String) : GraphState :=
  { input_text := input_text,
    input_source_url := input_source_url,
    extracted_claim := none,
    extraction_failed := false,
    extraction_error := none,
    search_results := [],
    search_query := none,
    evidence := [],
    assessments := [],
    result := none,
    errors := [] }

/-- run_source_check from graph.py: the LangGraph workflow is a fixed
topology with a single conditional edge out of the extractor
(should_continue_after_extraction); `Except.error` when the run raises
to the caller. -/
def run_source_check (o : Oracles) (input_text : String)
    (input_source_url : Option String) : Except String GraphState :=
  let s1 := extract_claim o.extraction (initialState input_text input_source_url)
  if s1.extraction_failed then
    assemble_attribution o.assembly s1
  else
    assemble_attribution o.assembly
      (compare_sources o.comparison
        (filter_evidence o.relevance o.classification
          (retrieve_sources o.search s1)))

set_option maxRecDepth 100000

/-! ### Theorems -/

/-- The quote-integrity condition as the specification words it
(section 4.3 step 3): normalize quote and content to lowercase only (no
whitespace stripping), accept on exact substring or on a token overlap of
at least 0.6.  Written for comparison with `quoteSurvives`, the condition
the code implements. -/
def specQuoteSurvives (quote content : String) : Bool :=
  let qn := strLower quote
  let cn := strLower content
  strContains cn qn ||
    (let qts := pySplit qn
     !qts.isEmpty &&
       decide (3 * qts.length ≤ 5 * (qts.countP (fun t => (pySplit cn).contains t))))

/-- C1 counterexample: the candidate content is "xabcd efgh ijkl" and the
claimed quote is " bcd efgh ijk" (with a leading space).  The lowercased
quote is not a substring of the lowercased content and its token overlap
is 1/3 < 0.6, so the claim's three conditions reject it — yet the code
strips the quote before the substring test ("bcd efgh ijk" is a
substring) and produces Evidence from the candidate. -/
theorem c1_counterexample :
    (assess_and_classify
        (Except.ok ⟨true, 1, some " bcd efgh ijk", "expl"⟩)
        (Except.ok ⟨SourceType.secondary, "cls"⟩)
        "the claim"
        ⟨"https://a.com/x", "t", "xabcd efgh ijkl", 1, none, none⟩).isSome = true
    ∧ specQuoteSurvives " bcd efgh ijk"
        (sourceText ⟨"https://a.com/x", "t", "xabcd efgh ijkl", 1, none, none⟩) = false := by
  decide

/-- C1 (amended): an Evidence item is produced from a candidate only if
the relevance response arrived, has is_relevant = true, relevance_score
at least 0.5, and a non-empty verbatim quote that survives the integrity
check of the code: after stripping surrounding whitespace from the quote
and lowercasing both sides, the quote is an exact substring of the
candidate's raw/plain content, or its token overlap (membership of each
quote token in the content's token list) is at least 0.6.  A candidate
failing any of these conditions contributes no Evidence. -/
theorem c1_quote_gate (rel : Except String EvidenceRelevanceResponse)
    (cls : Except String SourceClassificationResponse)
    (claim : String) (r : SearchResult) (ev : Evidence)
    (h : assess_and_classify rel cls claim r = some ev) :
    ∃ rr, rel = Except.ok rr ∧ rr.is_relevant = true ∧ halfQ ≤ rr.relevance_score ∧
      ∃ q, rr.verbatim_quote = some q ∧ q ≠ "" ∧
        quoteSurvives q (strLower (sourceText r)) = true := by
  cases rel with
  | error e => simp [assess_and_classify] at h
  | ok rr =>
    cases cls with
    | error e => simp [assess_and_classify] at h
    | ok cc =>
      refine ⟨rr, rfl, ?_⟩
      rw [assess_and_classify] at h
      cases hrel : rr.is_relevant with
      | false => rw [hrel] at h; simp at h
      | true =>
        rw [hrel] at h
        simp only [Bool.true_eq_false, if_false] at h
        by_cases hsc : rr.relevance_score < halfQ
        · rw [if_pos hsc] at h; simp at h
        · rw [if_neg hsc] at h
          refine ⟨rfl, not_lt.mp hsc, ?_⟩
          cases hq : rr.verbatim_quote with
          | none => rw [hq] at h; simp [checkedQuote] at h
          | some q =>
            rw [hq] at h
            by_cases hqe : q = ""
            · simp [checkedQuote, hqe] at h
            · by_cases hs : quoteSurvives q (strLower (sourceText r)) = true
              · exact ⟨q, rfl, hqe, hs⟩
              · simp [checkedQuote, hqe, hs] at h

/-- A sample relevance response used to instantiate theorems. -/
def sampleRelResp : EvidenceRelevanceResponse :=
  ⟨true, 1, some "a sample verbatim quote", "expl"⟩

/-- A sample classification response used to instantiate theorems. -/
def sampleClsResp : SourceClassificationResponse :=
  ⟨SourceType.secondary, "cls"⟩

/-- A sample candidate whose content contains the sample quote. -/
def sampleResult : SearchResult :=
  ⟨"https://a.com/x", "t", "here is a sample verbatim quote in context", 1, none, none⟩

/-- The Evidence the gate produces from `sampleResult`. -/
def sampleEvidence : Evidence :=
  ⟨"https://a.com/x", "t", SourceType.secondary, "a sample verbatim quote", 1, "expl"⟩

/-- C1 witness: the amended quote-gate theorem applied to a concrete
admitted candidate. -/
theorem c1_quote_gate_witness :
    ∃ rr, (Except.ok sampleRelResp : Except String EvidenceRelevanceResponse) = Except.ok rr ∧
      rr.is_relevant = true ∧ halfQ ≤ rr.relevance_score ∧
      ∃ q, rr.verbatim_quote = some q ∧ q ≠ "" ∧
        quoteSurvives q (strLower (sourceText sampleResult)) = true :=
  c1_quote_gate (Except.ok sampleRelResp) (Except.ok sampleClsResp)
    "the claim" sampleResult sampleEvidence (by decide)

/-- C10: when a candidate has non-empty rawContent, the quote-integrity
check runs against rawContent alone (the contentSnippet shown to the
relevance prompt plays no part): `sourceText` is rawContent, and a
non-empty claimed quote that fails the code's substring/overlap test
against rawContent causes the whole candidate to be dropped, whatever
the snippet contains. -/
theorem c10_raw_content_only (claim : String)
    (rel : Except String EvidenceRelevanceResponse)
    (cls : Except String SourceClassificationResponse)
    (r : SearchResult) (rc : String)
    (hraw : r.raw_content = some rc) (hne : rc ≠ "") :
    sourceText r = rc ∧
    (∀ rr q, rel = Except.ok rr → rr.verbatim_quote = some q → q ≠ "" →
      quoteSurvives q (strLower rc) = false →
      assess_and_classify rel cls claim r = none) := by
  have hst : sourceText r = rc := by
    simp [sourceText, pyOrStr, hraw, hne]
  refine ⟨hst, ?_⟩
  intro rr q hrel hq hqe hsurv
  subst hrel
  cases cls with
  | error e => simp [assess_and_classify]
  | ok cc =>
    rw [assess_and_classify]
    cases hrelv : rr.is_relevant with
    | false => simp
    | true =>
      simp only [Bool.true_eq_false, if_false]
      by_cases hsc : rr.relevance_score < halfQ
      · rw [if_pos hsc]
      · rw [if_neg hsc]
        rw [hst, hq]
        simp [checkedQuote, hqe, hsurv]

/-- The candidate of the C10 witness: the quote below appears verbatim
only in the content snippet, not in the (non-empty) raw content. -/
def snippetOnlyResult : SearchResult :=
  ⟨"https://a.com/x", "t", "the quick brown fox jumps", 1, none,
    some "completely different text here"⟩

/-- The relevance response of the C10 witness. -/
def snippetOnlyRelResp : EvidenceRelevanceResponse :=
  ⟨true, 1, some "the quick brown fox jumps", "expl"⟩

/-- C10 witness: a concrete candidate whose quote is verbatim in the
snippet but unsupported by the raw content is dropped. -/
theorem c10_raw_content_only_witness :
    sourceText snippetOnlyResult = "completely different text here" ∧
    assess_and_classify (Except.ok snippetOnlyRelResp)
      (Except.ok sampleClsResp) "the claim" snippetOnlyResult = none := by
  have h := c10_raw_content_only "the claim" (Except.ok snippetOnlyRelResp)
    (Except.ok sampleClsResp) snippetOnlyResult "completely different text here"
    (by decide) (by decide)
  exact ⟨h.1, h.2 snippetOnlyRelResp "the quick brown fox jumps" rfl rfl
    (by decide) (by decide)⟩

/-- Lexicographic tuple comparison is irreflexive. -/
theorem tupleGt_irrefl (p : Nat × Nat) : tupleGt p p = false := by
  simp [tupleGt]

/-- If q does not beat p and q beats r, then p beats r. -/
theorem tupleGt_of_not_gt_of_gt {p q r : Nat × Nat}
    (h1 : tupleGt q p = false) (h2 : tupleGt q r = true) : tupleGt p r = true := by
  obtain ⟨q1, q2⟩ := q
  obtain ⟨p1, p2⟩ := p
  obtain ⟨r1, r2⟩ := r
  simp only [tupleGt, Bool.or_eq_true, Bool.and_eq_true, decide_eq_true_eq,
    Bool.or_eq_false_iff, Bool.and_eq_false_iff, decide_eq_false_iff_not] at h1 h2 ⊢
  omega

/-- Two tuples neither of which beats the other are equal. -/
theorem tupleGt_antisymm {p q : Nat × Nat}
    (h1 : tupleGt p q = false) (h2 : tupleGt q p = false) : p = q := by
  obtain ⟨q1, q2⟩ := q
  obtain ⟨p1, p2⟩ := p
  simp only [tupleGt, Bool.or_eq_false_iff, Bool.and_eq_false_iff,
    decide_eq_false_iff_not] at h1 h2
  have : p1 = q1 ∧ p2 = q2 := by omega
  simp [this.1, this.2]

/-- The fold step of find_best_source. -/
def bestStep (best y : EvidenceAssessment) : EvidenceAssessment :=
  if tupleGt (scoreOf y) (scoreOf best) then y else best

/-- find_best_source on a non-empty list is the fold of `bestStep`. -/
theorem find_best_source_cons (x : EvidenceAssessment) (xs : List EvidenceAssessment) :
    find_best_source (x :: xs) = some (xs.foldl bestStep x) := by
  rfl

/-- The fold result is one of the scanned elements. -/
theorem foldl_bestStep_mem (x : EvidenceAssessment) (xs : List EvidenceAssessment) :
    xs.foldl bestStep x ∈ x :: xs := by
  induction xs generalizing x with
  | nil => simp
  | cons y ys ih =>
    have h := ih (bestStep x y)
    rcases List.mem_cons.mp h with h1 | h1
    · rw [List.foldl_cons]
      by_cases hg : tupleGt (scoreOf y) (scoreOf x) = true
      · rw [h1]
        simp [bestStep, hg]
      · rw [h1]
        simp only [bestStep, Bool.not_eq_true] at hg ⊢
        rw [hg]
        simp
    · rw [List.foldl_cons]
      right
      right
      exact h1

/-- Lexicographic tuple comparison is transitive. -/
theorem tupleGt_trans {p q r : Nat × Nat}
    (h1 : tupleGt p q = true) (h2 : tupleGt q r = true) : tupleGt p r = true := by
  obtain ⟨q1, q2⟩ := q
  obtain ⟨p1, p2⟩ := p
  obtain ⟨r1, r2⟩ := r
  simp only [tupleGt, Bool.or_eq_true, Bool.and_eq_true, decide_eq_true_eq] at h1 h2 ⊢
  omega

/-- No scanned element strictly beats the fold result. -/
theorem foldl_bestStep_max (x : EvidenceAssessment) (xs : List EvidenceAssessment) :
    ∀ b ∈ x :: xs, tupleGt (scoreOf b) (scoreOf (xs.foldl bestStep x)) = false := by
  induction xs generalizing x with
  | nil =>
    intro b hb
    simp at hb
    subst hb
    exact tupleGt_irrefl _
  | cons y ys ih =>
    intro b hb
    rw [List.foldl_cons]
    have ihs := ih (bestStep x y)
    rcases List.mem_cons.mp hb with h1 | h1
    · subst h1
      by_cases hg : tupleGt (scoreOf y) (scoreOf b) = true
      · have hstep : bestStep b y = y := by simp [bestStep, hg]
        rw [hstep] at ihs ⊢
        have hy : tupleGt (scoreOf y) (scoreOf (ys.foldl bestStep y)) = false :=
          ihs y (by simp)
        by_contra hc
        simp only [Bool.not_eq_false] at hc
        exact absurd (tupleGt_trans hg hc) (by simp [hy])
      · have hstep : bestStep b y = b := by
          simp only [Bool.not_eq_true] at hg
          simp [bestStep, hg]
        rw [hstep] at ihs ⊢
        exact ihs b (by simp)
    · rcases List.mem_cons.mp h1 with h2 | h2
      · subst h2
        by_cases hg : tupleGt (scoreOf b) (scoreOf x) = true
        · have hstep : bestStep x b = b := by simp [bestStep, hg]
          rw [hstep] at ihs ⊢
          exact ihs b (by simp)
        · have hstep : bestStep x b = x := by
            simp only [Bool.not_eq_true] at hg
            simp [bestStep, hg]
          rw [hstep] at ihs ⊢
          have hx : tupleGt (scoreOf x) (scoreOf (ys.foldl bestStep x)) = false :=
            ihs x (by simp)
          by_contra hc
          simp only [Bool.not_eq_false] at hc
          simp only [Bool.not_eq_true] at hg
          exact absurd (tupleGt_of_not_gt_of_gt hg hc) (by simp [hx])
      · exact ihs b (List.mem_cons_of_mem _ h2)

/-- The fold result is the first scanned element carrying its score:
Python max replaces the running best only on a strictly greater key. -/
theorem foldl_bestStep_first (x : EvidenceAssessment) (xs : List EvidenceAssessment) :
    (x :: xs).find? (fun b => decide (scoreOf b = scoreOf (xs.foldl bestStep x)))
      = some (xs.foldl bestStep x) := by
  induction xs generalizing x with
  | nil => simp [List.find?]
  | cons y ys ih =>
    rw [List.foldl_cons]
    by_cases hxy : tupleGt (scoreOf y) (scoreOf x) = true
    · have hstep : bestStep x y = y := by simp [bestStep, hxy]
      rw [hstep]
      have hyr : tupleGt (scoreOf y) (scoreOf (ys.foldl bestStep y)) = false :=
        foldl_bestStep_max y ys y (by simp)
      have hpx : ¬ scoreOf x = scoreOf (ys.foldl bestStep y) := by
        intro he
        rw [he] at hxy
        exact absurd hxy (by simp [hyr])
      rw [List.find?_cons_of_neg _ (by simp [hpx])]
      exact ih y
    · have hstep : bestStep x y = x := by
        simp only [Bool.not_eq_true] at hxy
        simp [bestStep, hxy]
      rw [hstep]
      have ihx := ih x
      by_cases hpx : scoreOf x = scoreOf (ys.foldl bestStep x)
      · have h1 : (x :: ys).find?
            (fun b => decide (scoreOf b = scoreOf (ys.foldl bestStep x))) = some x :=
          List.find?_cons_of_pos _ (by simp [hpx])
        rw [ihx] at h1
        have hrx : ys.foldl bestStep x = x := Option.some.inj h1
        rw [hrx]
        exact List.find?_cons_of_pos _ (by simp)
      · rw [List.find?_cons_of_neg _ (by simp [hpx])] at ihx
        rw [List.find?_cons_of_neg _ (by simp [hpx])]
        have hpy : ¬ scoreOf y = scoreOf (ys.foldl bestStep x) := by
          intro he
          have hxr : tupleGt (scoreOf x) (scoreOf (ys.foldl bestStep x)) = false :=
            foldl_bestStep_max x ys x (by simp)
          have hrx : tupleGt (scoreOf (ys.foldl bestStep x)) (scoreOf x) = false := by
            rw [← he]
            simpa using hxy
          exact hpx (tupleGt_antisymm hxr hrx)
        rw [List.find?_cons_of_neg _ (by simp [hpy])]
        exact ihx

/-- C3: best-evidence selection is the stable lexicographic maximum of
the (typeScore, relationScore) pairs — the selected assessment is in the
list, no list element strictly beats it, it is the first element of the
list carrying its score (the running best is replaced only on a strictly
greater score), and a non-empty list always selects something; in
particular among a primary/direct and a secondary/paraphrase assessment
the primary/direct one is selected whatever the order. -/
theorem c3_best_selection :
    (∀ l a, find_best_source l = some a →
      a ∈ l ∧ (∀ b ∈ l, tupleGt (scoreOf b) (scoreOf a) = false) ∧
      l.find? (fun b => decide (scoreOf b = scoreOf a)) = some a) ∧
    (∀ l, l ≠ [] → (find_best_source l).isSome = true) ∧
    (∀ a b : EvidenceAssessment,
      a.evidence.source_type = SourceType.primary → a.attribution = Attribution3.direct →
      b.evidence.source_type = SourceType.secondary → b.attribution = Attribution3.paraphrase →
      find_best_source [a, b] = some a ∧ find_best_source [b, a] = some a) := by
  refine ⟨?_, ?_, ?_⟩
  · intro l a h
    cases l with
    | nil => simp [find_best_source] at h
    | cons x xs =>
      rw [find_best_source_cons] at h
      have ha : a = xs.foldl bestStep x := (Option.some.inj h).symm
      subst ha
      exact ⟨foldl_bestStep_mem x xs, foldl_bestStep_max x xs, foldl_bestStep_first x xs⟩
  · intro l hl
    cases l with
    | nil => exact absurd rfl hl
    | cons x xs => simp [find_best_source_cons]
  · intro a b h1 h2 h3 h4
    have hsa : scoreOf a = (3, 2) := by simp [scoreOf, h1, h2, typeScore, attrScore]
    have hsb : scoreOf b = (1, 1) := by simp [scoreOf, h3, h4, typeScore, attrScore]
    constructor
    · rw [find_best_source_cons]
      simp [bestStep, hsa, hsb, tupleGt]
    · rw [find_best_source_cons]
      simp [bestStep, hsa, hsb, tupleGt]

/-- A concrete primary/direct assessment. -/
def primaryDirectA : EvidenceAssessment :=
  ⟨⟨"https://p.com/x", "P", SourceType.primary, "primary quote text", 1, "e"⟩,
    Attribution3.direct, "r"⟩

/-- A concrete secondary/paraphrase assessment. -/
def secondaryParaB : EvidenceAssessment :=
  ⟨⟨"https://s.com/x", "S", SourceType.secondary, "secondary quote text", 1, "e"⟩,
    Attribution3.paraphrase, "r"⟩

/-- C3 witness: the selection theorem applied to the concrete
primary/direct vs secondary/paraphrase pair, in both orders. -/
theorem c3_best_selection_witness :
    find_best_source [primaryDirectA, secondaryParaB] = some primaryDirectA ∧
    find_best_source [secondaryParaB, primaryDirectA] = some primaryDirectA :=
  c3_best_selection.2.2 primaryDirectA secondaryParaB rfl rfl rfl rfl

/-- Membership in an insertion. -/
theorem mem_insertDesc {z x : Evidence} {l : List Evidence} :
    z ∈ insertDesc x l ↔ z = x ∨ z ∈ l := by
  induction l with
  | nil => simp [insertDesc]
  | cons y ys ih =>
    rw [insertDesc]
    by_cases h : y.relevance_score ≤ x.relevance_score
    · rw [if_pos h]
      simp
    · rw [if_neg h]
      simp only [List.mem_cons, ih]
      tauto

/-- Insertion preserves the sorted-descending invariant. -/
theorem pairwise_insertDesc (x : Evidence) (l : List Evidence)
    (h : l.Pairwise (fun a b => b.relevance_score ≤ a.relevance_score)) :
    (insertDesc x l).Pairwise (fun a b => b.relevance_score ≤ a.relevance_score) := by
  induction l with
  | nil => simp [insertDesc]
  | cons y ys ih =>
    rw [insertDesc]
    rcases List.pairwise_cons.mp h with ⟨hy, hys⟩
    by_cases hc : y.relevance_score ≤ x.relevance_score
    · rw [if_pos hc]
      refine List.pairwise_cons.mpr ⟨?_, h⟩
      intro z hz
      rcases List.mem_cons.mp hz with h1 | h1
      · rw [h1]; exact hc
      · exact le_trans (hy z h1) hc
    · rw [if_neg hc]
      refine List.pairwise_cons.mpr ⟨?_, ih hys⟩
      intro z hz
      rcases mem_insertDesc.mp hz with h1 | h1
      · rw [h1]; exact le_of_lt (lt_of_not_le hc)
      · exact hy z h1

/-- The stable descending sort is sorted descending. -/
theorem sortDesc_pairwise (l : List Evidence) :
    (sortDesc l).Pairwise (fun a b => b.relevance_score ≤ a.relevance_score) := by
  induction l with
  | nil => simp [sortDesc]
  | cons x xs ih => exact pairwise_insertDesc x (sortDesc xs) ih

/-- Insertion and the equal-score filter: elements skipped over by the
insertion have a strictly greater score, so the filter either gains the
inserted element at the front (equal score) or is untouched. -/
theorem filter_insertDesc (q : ℚ) (x : Evidence) (l : List Evidence) :
    (insertDesc x l).filter (fun e => decide (e.relevance_score = q)) =
      if x.relevance_score = q then
        x :: l.filter (fun e => decide (e.relevance_score = q))
      else l.filter (fun e => decide (e.relevance_score = q)) := by
  induction l with
  | nil =>
    by_cases hx : x.relevance_score = q
    · simp [insertDesc, hx]
    · simp [insertDesc, hx]
  | cons y ys ih =>
    rw [insertDesc]
    by_cases hc : y.relevance_score ≤ x.relevance_score
    · rw [if_pos hc]
      by_cases hx : x.relevance_score = q
      · simp [List.filter_cons, hx]
      · simp [List.filter_cons, hx]
    · rw [if_neg hc]
      have hgt : x.relevance_score < y.relevance_score := lt_of_not_le hc
      by_cases hx : x.relevance_score = q
      · have hy : ¬ y.relevance_score = q := by
          intro he
          rw [he, hx] at hgt
          exact lt_irrefl q hgt
        simp [List.filter_cons, ih, hx, hy]
      · by_cases hy : y.relevance_score = q
        · simp [List.filter_cons, ih, hx, hy]
        · simp [List.filter_cons, ih, hx, hy]

/-- The stable sort leaves each equal-score fibre of the list unchanged
(stability: ties keep their original order). -/
theorem sortDesc_filter (q : ℚ) (l : List Evidence) :
    (sortDesc l).filter (fun e => decide (e.relevance_score = q)) =
      l.filter (fun e => decide (e.relevance_score = q)) := by
  induction l with
  | nil => rfl
  | cons x xs ih =>
    rw [sortDesc, filter_insertDesc, List.filter_cons]
    by_cases hx : x.relevance_score = q
    · rw [if_pos hx, ih]
      simp [hx]
    · rw [if_neg hx, ih]
      simp [hx]

/-- The surviving assessments of the comparer map back to a sublist of
the evidence list (order preserved, failed items dropped, no re-sort). -/
theorem compareAll_map_sublist (cmp : Nat → Except String SourceAttributionResponse) :
    ∀ (i : Nat) (l : List Evidence),
      (((compareAll cmp i l).filterMap id).map (fun a => a.evidence)).Sublist l := by
  intro i l
  induction l generalizing i with
  | nil => simp [compareAll]
  | cons e es ih =>
    rw [compareAll]
    cases hc : cmp i with
    | error msg =>
      simp only [List.filterMap_cons, classifyOne, id]
      exact (ih (i + 1)).cons e
    | ok r =>
      simp only [List.filterMap_cons, classifyOne, id, List.map_cons]
      exact (ih (i + 1)).cons₂ e

/-- The Evidence Gate's output list in terms of the admitted evidence:
stable descending sort, then the top five. -/
theorem filter_evidence_evidence
    (rel : Nat → Except String EvidenceRelevanceResponse)
    (cls : Nat → Except String SourceClassificationResponse) (s : GraphState) :
    (filter_evidence rel cls s).evidence = (sortDesc (admittedEvidence rel cls s)).take 5 := by
  cases hcl : s.extracted_claim with
  | none => simp [filter_evidence, admittedEvidence, hcl, sortDesc]
  | some c =>
    by_cases hres : s.search_results = []
    · simp [filter_evidence, admittedEvidence, hcl, hres, sortDesc]
    · simp [filter_evidence, admittedEvidence, hcl, hres]

/-- The comparer's assessments map back to a sublist of the incoming
evidence list. -/
theorem compare_sources_sublist (cmp : Nat → Except String SourceAttributionResponse)
    (st : GraphState) :
    (((compare_sources cmp st).assessments).map (fun a => a.evidence)).Sublist st.evidence := by
  rw [compare_sources]
  cases hcl : st.extracted_claim with
  | none => simp
  | some c =>
    by_cases hev : st.evidence = []
    · rw [if_pos hev]
      simp [hev]
    · rw [if_neg hev]
      exact compareAll_map_sublist cmp 0 st.evidence

/-- C2: the Evidence Gate's list has at most 5 entries, is sorted by
relevance score descending, and ties keep the original candidate order
(each equal-score fibre of the output is a prefix of the corresponding
fibre of the admitted evidence in candidate order); the Source Comparer
only drops failed items — its assessments map to a sublist of the
evidence list — so the assessment list is also at most 5 long and sorted
by relevance score descending. -/
theorem c2_ranking (rel : Nat → Except String EvidenceRelevanceResponse)
    (cls : Nat → Except String SourceClassificationResponse)
    (cmp : Nat → Except String SourceAttributionResponse) (s : GraphState) :
    (filter_evidence rel cls s).evidence.length ≤ 5 ∧
    ((filter_evidence rel cls s).evidence).Pairwise
      (fun a b => b.relevance_score ≤ a.relevance_score) ∧
    (∀ q : ℚ,
      ((filter_evidence rel cls s).evidence.filter
          (fun e => decide (e.relevance_score = q))) <+:
        ((admittedEvidence rel cls s).filter
          (fun e => decide (e.relevance_score = q)))) ∧
    (((compare_sources cmp (filter_evidence rel cls s)).assessments).map
        (fun a => a.evidence)).Sublist ((filter_evidence rel cls s).evidence) ∧
    (compare_sources cmp (filter_evidence rel cls s)).assessments.length ≤ 5 ∧
    ((compare_sources cmp (filter_evidence rel cls s)).assessments).Pairwise
      (fun a b => b.evidence.relevance_score ≤ a.evidence.relevance_score) := by
  have he := filter_evidence_evidence rel cls s
  have hlen : (filter_evidence rel cls s).evidence.length ≤ 5 := by
    rw [he, List.length_take]
    exact min_le_left _ _
  have hpw : ((filter_evidence rel cls s).evidence).Pairwise
      (fun a b => b.relevance_score ≤ a.relevance_score) := by
    rw [he]
    exact (sortDesc_pairwise (admittedEvidence rel cls s)).sublist
      (List.take_sublist 5 _)
  have hsub := compare_sources_sublist cmp (filter_evidence rel cls s)
  refine ⟨hlen, hpw, ?_, hsub, ?_, ?_⟩
  · intro q
    rw [he, ← sortDesc_filter q (admittedEvidence rel cls s)]
    exact List.IsPrefix.filter _ (List.take_prefix 5 _)
  · have h1 := hsub.length_le
    rw [List.length_map] at h1
    exact le_trans h1 hlen
  · have h2 := hpw.sublist hsub
    exact (List.pairwise_map.mp h2)

/-- State update `{**state, "result": result}` of the assembler. -/
def setResult (s : GraphState) (r : SourceAttribution) : GraphState :=
  { s with result := some r }

/-- State update `{**state, "result": result, "errors": errs}` of the
assembler's fallback branch. -/
def setResultErrors (s : GraphState) (r : SourceAttribution) (es : List String) : GraphState :=
  { s with result := some r, errors := es }

/-- C4: a raised or unparseable extraction call is surfaced as
extraction_failed = true with the error text as the reason and a
non-fatal error log entry; and whenever the state says extraction
failed, the assembler produces (regardless of downstream state) a
Verdict with relation not_found, summary the failure reason (or the
default message), no assessments, no best assessment, and
reliesOnSecondaryOnly false; composed, a run whose extraction call
raises ends in exactly that Verdict. -/
theorem c4_extraction_failure :
    (∀ e s, extract_claim (Except.error e) s =
      { s with extracted_claim := none, extraction_failed := true,
               extraction_error := some e,
               errors := s.errors ++ ["Claim extraction: " ++ e] }) ∧
    (∀ asm s, s.extraction_failed = true →
      (pyOrDefault s.extraction_error
        "Could not extract a verifiable factual claim from the input.").length ≤ 500 →
      assemble_attribution asm s = Except.ok (setResult s
        (SourceAttribution.mk "[No factual claim could be extracted]"
          AttributionType.not_found
          (pyOrDefault s.extraction_error
            "Could not extract a verifiable factual claim from the input.")
          [] none false))) ∧
    (∀ o input url e, o.extraction = Except.error e → e ≠ "" → e.length ≤ 500 →
      ∃ st v, run_source_check o input url = Except.ok st ∧ st.result = some v ∧
        v.attribution = AttributionType.not_found ∧ v.summary = e ∧
        v.evidence_list = [] ∧ v.best_source = none ∧
        v.relies_on_secondary_only = false ∧
        st.errors = ["Claim extraction: " ++ e]) := by
  have hnode : ∀ e s, extract_claim (Except.error e) s =
      { s with extracted_claim := none, extraction_failed := true,
               extraction_error := some e,
               errors := s.errors ++ ["Claim extraction: " ++ e] } := by
    intro e s
    rfl
  have hasm : ∀ asm s, s.extraction_failed = true →
      (pyOrDefault s.extraction_error
        "Could not extract a verifiable factual claim from the input.").length ≤ 500 →
      assemble_attribution asm s = Except.ok (setResult s
        (SourceAttribution.mk "[No factual claim could be extracted]"
          AttributionType.not_found
          (pyOrDefault s.extraction_error
            "Could not extract a verifiable factual claim from the input.")
          [] none false)) := by
    intro asm s hf hlen
    rw [assemble_attribution, if_pos hf, mkSourceAttribution,
      if_pos ⟨hlen, by simp⟩]
    rfl
  refine ⟨hnode, hasm, ?_⟩
  intro o input url e ho hne hlen
  have hor : pyOrDefault (some e)
      "Could not extract a verifiable factual claim from the input." = e := by
    simp [pyOrDefault, pyOrStr, hne]
  refine ⟨setResult (extract_claim (Except.error e) (initialState input url))
      (SourceAttribution.mk "[No factual claim could be extracted]"
        AttributionType.not_found
        (pyOrDefault (some e)
          "Could not extract a verifiable factual claim from the input.")
        [] none false),
    SourceAttribution.mk "[No factual claim could be extracted]"
      AttributionType.not_found
      (pyOrDefault (some e)
        "Could not extract a verifiable factual claim from the input.")
      [] none false,
    ?_, rfl, rfl, hor, rfl, rfl, rfl, ?_⟩
  · rw [run_source_check, ho, if_pos (show (extract_claim (Except.error e)
      (initialState input url)).extraction_failed = true from rfl)]
    exact hasm o.assembly (extract_claim (Except.error e) (initialState input url))
      rfl (by rw [show (extract_claim (Except.error e)
        (initialState input url)).extraction_error = some e from rfl, hor]; exact hlen)
  · show ([] : List String) ++ ["Claim extraction: " ++ e] = _
    simp

/-- C6: with extraction succeeded (so a claim is present) and an empty
assessment list, the assembler's Verdict is not_found with the fixed
no-relevant-sources summary, empty assessments, no best assessment and
reliesOnSecondaryOnly false. -/
theorem c6_no_assessments (asm : Except String AssemblyJson) (s : GraphState)
    (c : ExtractedClaim) (h1 : s.extraction_failed = false)
    (h2 : s.assessments = []) (h3 : s.extracted_claim = some c) :
    assemble_attribution asm s = Except.ok (setResult s
      (SourceAttribution.mk c.claim AttributionType.not_found
        "No relevant sources were found that address this claim."
        [] none false)) := by
  rw [assemble_attribution, if_neg (by rw [h1]; exact Bool.false_ne_true),
    if_pos h2, h3, mkSourceAttribution, if_pos ⟨by decide, by simp⟩]
  simp [setResult, h3]

/-- An oracle set whose extraction call raises. -/
def failOracle : Oracles :=
  ⟨Except.error "boom failure", Except.ok [], fun _ => Except.error "x",
   fun _ => Except.error "x", fun _ => Except.error "x", Except.error "x"⟩

/-- C4 witness: a run whose extraction call raises ends in the
extraction-failure Verdict with the error text as summary. -/
theorem c4_extraction_failure_witness :
    ∃ st v, run_source_check failOracle "input text" none = Except.ok st ∧
      st.result = some v ∧ v.attribution = AttributionType.not_found ∧
      v.summary = "boom failure" ∧ v.evidence_list = [] ∧ v.best_source = none ∧
      v.relies_on_secondary_only = false ∧
      st.errors = ["Claim extraction: " ++ "boom failure"] :=
  c4_extraction_failure.2.2 failOracle "input text" none "boom failure"
    rfl (by decide) (by decide)

/-- A sample extracted claim. -/
def sampleClaim : ExtractedClaim :=
  ⟨"Tesla delivered 1.81 million vehicles", "ctx", Confidence.high, none⟩

/-- A state after a successful extraction with no assessments. -/
def emptyAssessState : GraphState :=
  ⟨"input", none, some sampleClaim, false, none, [], none, [], [], none, []⟩

/-- C6 witness: the no-assessments theorem at a concrete state. -/
theorem c6_no_assessments_witness :
    assemble_attribution (Except.error "x") emptyAssessState = Except.ok
      (setResult emptyAssessState
        (SourceAttribution.mk sampleClaim.claim AttributionType.not_found
          "No relevant sources were found that address this claim."
          [] none false)) :=
  c6_no_assessments (Except.error "x") emptyAssessState sampleClaim rfl rfl rfl

/-- C7: with a non-empty assessment list, the locally computed
reliesOnSecondaryOnly is true iff every assessment's evidence is a
secondary source, and on a successful synthesis call the flag in the
final Verdict is the logical OR of the local flag and the flag in the
synthesis response. -/
theorem c7_relies_on_secondary (asm : Except String AssemblyJson) (s : GraphState)
    (c : ExtractedClaim)
    (h1 : s.extraction_failed = false) (h2 : s.assessments ≠ [])
    (h3 : s.extracted_claim = some c) (h4 : s.assessments.length ≤ 5) :
    (reliesOnSecondaryLocal s.assessments = true ↔
      ∀ a ∈ s.assessments, a.evidence.source_type = SourceType.secondary) ∧
    (∀ j astr summ att, asm = Except.ok j → j.attribution = some astr →
      j.summary = some summ → parseAttributionType astr = some att →
      summ.length ≤ 500 →
      assemble_attribution asm s = Except.ok (setResult s
        (SourceAttribution.mk c.claim att summ s.assessments
          (find_best_source s.assessments)
          (reliesOnSecondaryLocal s.assessments ||
            j.relies_on_secondary_only.getD false)))) := by
  constructor
  · simp [reliesOnSecondaryLocal, List.all_eq_true]
  · intro j astr summ att hj hattr hsumm hparse hsl
    subst hj
    rw [assemble_attribution, if_neg (by rw [h1]; exact Bool.false_ne_true),
      if_neg h2, h3]
    simp only [hattr, hsumm, hparse, mkSourceAttribution]
    rw [if_pos (show summ.length ≤ 500 ∧ s.assessments.length ≤ 5 from ⟨hsl, h4⟩)]
    simp [setResult, h3]

/-- C8: with a non-empty assessment list, a failed synthesis call yields
a not_found Verdict with the explanatory summary while keeping the full
assessments list, the computed best evidence and the locally computed
secondary-only flag, and appends the failure to the non-fatal error log
rather than raising. -/
theorem c8_graceful_degradation (s : GraphState) (c : ExtractedClaim) (e : String)
    (h1 : s.extraction_failed = false) (h2 : s.assessments ≠ [])
    (h3 : s.extracted_claim = some c) (h4 : s.assessments.length ≤ 5)
    (h5 : ("An error occurred while assembling the attribution: " ++ e).length ≤ 500) :
    assemble_attribution (Except.error e) s = Except.ok (setResultErrors s
      (SourceAttribution.mk c.claim AttributionType.not_found
        ("An error occurred while assembling the attribution: " ++ e)
        s.assessments (find_best_source s.assessments)
        (reliesOnSecondaryLocal s.assessments))
      (s.errors ++ ["Attribution assembly: " ++ e])) := by
  rw [String.length_append] at h5
  rw [assemble_attribution, if_neg (by rw [h1]; exact Bool.false_ne_true),
    if_neg h2, h3]
  simp only [mkSourceAttribution, String.length_append]
  rw [if_pos (show "An error occurred while assembling the attribution: ".length + e.length ≤ 500
    ∧ s.assessments.length ≤ 5 from ⟨h5, h4⟩)]
  simp [setResultErrors, h3]

/-- A state after a successful extraction carrying one secondary
paraphrase assessment. -/
def secondaryOnlyState : GraphState :=
  ⟨"input", none, some sampleClaim, false, none, [], none, [], [secondaryParaB], none, []⟩

/-- A successful synthesis response for the C7 witness. -/
def sampleAssemblyJson : AssemblyJson :=
  ⟨some "paraphrase", some "Only secondary sources address this claim.", some false⟩

/-- C7 witness: the secondary-only theorem at a concrete single-item
secondary state and a concrete successful synthesis response. -/
theorem c7_relies_on_secondary_witness :
    ((reliesOnSecondaryLocal secondaryOnlyState.assessments = true ↔
      ∀ a ∈ secondaryOnlyState.assessments,
        a.evidence.source_type = SourceType.secondary) ∧
    (∀ j astr summ att,
      (Except.ok sampleAssemblyJson : Except String AssemblyJson) = Except.ok j →
      j.attribution = some astr → j.summary = some summ →
      parseAttributionType astr = some att → summ.length ≤ 500 →
      assemble_attribution (Except.ok sampleAssemblyJson) secondaryOnlyState =
        Except.ok (setResult secondaryOnlyState
          (SourceAttribution.mk sampleClaim.claim att summ
            secondaryOnlyState.assessments
            (find_best_source secondaryOnlyState.assessments)
            (reliesOnSecondaryLocal secondaryOnlyState.assessments ||
              j.relies_on_secondary_only.getD false))))) :=
  c7_relies_on_secondary (Except.ok sampleAssemblyJson) secondaryOnlyState
    sampleClaim rfl (by decide) rfl (by decide)

/-- C8 witness: the graceful-degradation theorem at a concrete state and
synthesis failure. -/
theorem c8_graceful_degradation_witness :
    assemble_attribution (Except.error "synthesis failed") secondaryOnlyState =
      Except.ok (setResultErrors secondaryOnlyState
        (SourceAttribution.mk sampleClaim.claim AttributionType.not_found
          ("An error occurred while assembling the attribution: " ++ "synthesis failed")
          secondaryOnlyState.assessments
          (find_best_source secondaryOnlyState.assessments)
          (reliesOnSecondaryLocal secondaryOnlyState.assessments))
        (secondaryOnlyState.errors ++ ["Attribution assembly: " ++ "synthesis failed"])) :=
  c8_graceful_degradation secondaryOnlyState sampleClaim "synthesis failed"
    rfl (by decide) rfl (by decide) (by decide)

/-- C9 counterexample: with origin URL https://www.example.com/page the
claim's rule says a result on https://example.com/a is dropped — its
hostname "example.com" is a suffix of the origin hostname
"www.example.com" — yet retrieve_sources keeps it: the code tests the
reverse direction, result-hostname.endswith(origin-hostname). -/
theorem c9_counterexample :
    strEndsWith "www.example.com" "example.com" = true ∧
    urlHostname "https://www.example.com/page" = some "www.example.com" ∧
    urlHostname "https://example.com/a" = some "example.com" ∧
    processResults (some "www.example.com")
      [⟨some "https://example.com/a", "t", "c", 1, none, none⟩] [] =
      [⟨"https://example.com/a", "t", "c", 1, none, none⟩] := by
  decide

/-- The per-item outcome ignoring deduplication and self-citation: the
validated SearchResult, None when the url key is missing or validation
fails. -/
def itemKeep (it : RawResult) : Option SearchResult :=
  it.url.bind (fun u => mkSearchResult u it)

/-- The url of a validated SearchResult is the url it was built from. -/
theorem mkSearchResult_url {u : String} {it : RawResult} {r : SearchResult}
    (h : mkSearchResult u it = some r) : r.url = u := by
  rw [mkSearchResult] at h
  by_cases hv : (strStartsWith u "http://" || strStartsWith u "https://") = true
      ∧ (urlHostname u).isSome ∧ 0 ≤ it.score ∧ it.score ≤ 1
  · rw [if_pos hv] at h
    cases h
    rfl
  · rw [if_neg hv] at h
    cases h

/-- No kept result's hostname ends with the excluded origin hostname. -/
theorem processResults_no_self (exc : Option String) (items : List RawResult) :
    ∀ seen r, r ∈ processResults exc items seen → ∀ eh, exc = some eh → eh ≠ "" →
      strEndsWith (strLower ((urlHostname r.url).getD "")) eh = false := by
  induction items with
  | nil =>
    intro seen r hr
    simp [processResults] at hr
  | cons it rest ih =>
    intro seen r hr eh hexc hne
    rw [processResults] at hr
    split at hr
    · exact ih _ r hr eh hexc hne
    · next u hu =>
      split at hr
      · exact ih _ r hr eh hexc hne
      · split at hr
        · exact ih _ r hr eh hexc hne
        · next hdrop =>
          split at hr
          · next r2 hmk =>
            rcases List.mem_cons.mp hr with h1 | h1
            · subst h1
              rw [mkSearchResult_url hmk]
              rw [hexc] at hdrop
              simp only [selfDrop, Bool.not_eq_true, Bool.and_eq_false_iff] at hdrop
              rcases hdrop with h2 | h2
              · exact absurd h2 (by simp [hne])
              · exact h2
            · exact ih _ r h1 eh hexc hne
          · exact ih _ r hr eh hexc hne

/-- Kept results have pairwise distinct urls, none of them already seen. -/
theorem processResults_nodup (exc : Option String) (items : List RawResult) :
    ∀ seen, ((processResults exc items seen).map (fun r => r.url)).Nodup ∧
      ∀ r ∈ processResults exc items seen, ¬ r.url ∈ seen := by
  induction items with
  | nil =>
    intro seen
    simp [processResults]
  | cons it rest ih =>
    intro seen
    rw [processResults]
    split
    · exact ih seen
    · next u hu =>
      split
    
      · exact ih seen
      · next hseen =>
        split
        · refine ⟨(ih (u :: seen)).1, ?_⟩
          intro r hr hc
          exact (ih (u :: seen)).2 r hr (List.mem_cons_of_mem u hc)
        · split
          · next r2 hmk =>
            have hurl := mkSearchResult_url hmk
            constructor
            · rw [List.map_cons]
              refine List.nodup_cons.mpr ⟨?_, (ih (u :: seen)).1⟩
              intro hmem
              rcases List.mem_map.mp hmem with ⟨r3, hr3, he3⟩
              have h4 := (ih (u :: seen)).2 r3 hr3
              rw [he3, hurl] at h4
              exact h4 (List.mem_cons_self u seen)
            · intro r hr hc
              rcases List.mem_cons.mp hr with h1 | h1
              · subst h1
                rw [hurl] at hc
                exact hseen (by simpa using hc)
              · exact (ih (u :: seen)).2 r h1 (List.mem_cons_of_mem u hc)
          · refine ⟨(ih (u :: seen)).1, ?_⟩
            intro r hr hc
            exact (ih (u :: seen)).2 r hr (List.mem_cons_of_mem u hc)

/-- Kept results are a sublist of the validated per-item outcomes in
provider order: order is preserved and malformed items are skipped
without aborting. -/
theorem processResults_sublist (exc : Option String) (items : List RawResult) :
    ∀ seen, (processResults exc items seen).Sublist (items.filterMap itemKeep) := by
  induction items with
  | nil =>
    intro seen
    simp [processResults]
  | cons it rest ih =>
    intro seen
    rw [processResults, List.filterMap_cons]
    split
    · next hu =>
      have hk : itemKeep it = none := by
        rw [itemKeep, hu]
        rfl
      rw [hk]
      exact ih seen
    · next u hu =>
      have hk : itemKeep it = mkSearchResult u it := by
        rw [itemKeep, hu]
        rfl
      split
      · rw [hk]
        cases hmk : mkSearchResult u it with
        | none => exact ih seen
        | some r2 => exact (ih seen).cons r2
      · split
        · rw [hk]
          cases hmk : mkSearchResult u it with
          | none => exact ih (u :: seen)
          | some r2 => exact (ih (u :: seen)).cons r2
        · split
          · next r2 hmk =>
            rw [hk, hmk]
            exact (ih (u :: seen)).cons₂ r2
          · next hmk =>
            rw [hk, hmk]
            exact ih (u :: seen)

/-- The first item carrying a url is the one kept: if no earlier item has
the same url, the url is unseen, the self-citation test does not fire and
validation succeeds, then that item's result is in the output. -/
theorem processResults_first (exc : Option String) :
    ∀ (pre : List RawResult) (it : RawResult) (post : List RawResult) (u : String)
      (r : SearchResult) (seen : List String),
      it.url = some u → ¬ u ∈ seen → (∀ p ∈ pre, p.url ≠ some u) →
      selfDrop exc u = false → mkSearchResult u it = some r →
      r ∈ processResults exc (pre ++ it :: post) seen := by
  intro pre
  induction pre with
  | nil =>
    intro it post u r seen hu hseen hpre hdrop hmk
    rw [List.nil_append, processResults]
    simp only [hu]
    have hc : ¬ seen.contains u = true := by
      intro hcon
      exact hseen (by simpa using hcon)
    rw [if_neg hc, if_neg (by rw [hdrop]; exact Bool.false_ne_true)]
    simp only [hmk]
    exact List.mem_cons_self r _
  | cons p ps ih =>
    intro it post u r seen hu hseen hpre hdrop hmk
    have hpu : p.url ≠ some u := hpre p (List.mem_cons_self p ps)
    have hps : ∀ q ∈ ps, q.url ≠ some u := fun q hq => hpre q (List.mem_cons_of_mem p hq)
    rw [List.cons_append, processResults]
    cases hpurl : p.url with
    | none =>
      simp only [hpurl]
      exact ih it post u r seen hu hseen hps hdrop hmk
    | some v =>
      have hvu : ¬ u ∈ ([v] : List String) := by
        intro he
        simp at he
        rw [← he] at hpurl
        exact hpu hpurl
      have hseen2 : ¬ u ∈ v :: seen := by
        intro he
        rcases List.mem_cons.mp he with h1 | h1
        · exact hvu (by simp [h1])
        · exact hseen h1
      simp only [hpurl]
      by_cases hs : seen.contains v = true
      · rw [if_pos hs]
        exact ih it post u r seen hu hseen hps hdrop hmk
      · rw [if_neg hs]
        by_cases hd : selfDrop exc v = true
        · rw [if_pos hd]
          exact ih it post u r (v :: seen) hu hseen2 hps hdrop hmk
        · rw [if_neg hd]
          cases hm2 : mkSearchResult v p with
          | none =>
            simp only [hm2]
            exact ih it post u r (v :: seen) hu hseen2 hps hdrop hmk
          | some r2 =>
            simp only [hm2]
            exact List.mem_cons_of_mem r2 (ih it post u r (v :: seen) hu hseen2 hps hdrop hmk)

/-- C9 (amended): for every retrieval with an origin URL, the Source
Retriever drops every result whose hostname ends with the origin URL's
hostname (the origin hostname equal to or a suffix of the result's
hostname, a substring-style suffix test without a dot-boundary check,
the reverse of the direction the claim words); it drops every result whose URL exactly matches an
already-seen URL (output urls are pairwise distinct and the first
keepable occurrence of a url is kept); malformed individual results are
skipped without aborting; and surviving results keep the provider's
order (the output is a sublist of the validated per-item outcomes). -/
theorem c9_retriever :
    (∀ eh items r, r ∈ processResults (some eh) items [] → eh ≠ "" →
      strEndsWith (strLower ((urlHostname r.url).getD "")) eh = false) ∧
    (∀ exc items, ((processResults exc items []).map (fun r => r.url)).Nodup) ∧
    (∀ exc items, (processResults exc items []).Sublist (items.filterMap itemKeep)) ∧
    (∀ exc pre it post u r, it.url = some u → (∀ p ∈ pre, p.url ≠ some u) →
      selfDrop exc u = false → mkSearchResult u it = some r →
      r ∈ processResults exc (pre ++ it :: post) []) :=
  ⟨fun eh items r hr hne => processResults_no_self (some eh) items [] r hr eh rfl hne,
   fun exc items => (processResults_nodup exc items []).1,
   fun exc items => processResults_sublist exc items [],
   fun exc pre it post u r hu hpre hdrop hmk =>
     processResults_first exc pre it post u r [] hu (by simp) hpre hdrop hmk⟩

/-- C9 witness: the first-occurrence clause at a concrete two-item list
under origin hostname example.com. -/
theorem c9_retriever_witness :
    (⟨"https://a.com/x", "A1", "c", 1, none, none⟩ : SearchResult) ∈
      processResults (some "example.com")
        [⟨some "https://other.com/1", "O", "c", 1, none, none⟩,
         ⟨some "https://a.com/x", "A1", "c", 1, none, none⟩] [] :=
  c9_retriever.2.2.2 (some "example.com")
    [⟨some "https://other.com/1", "O", "c", 1, none, none⟩]
    ⟨some "https://a.com/x", "A1", "c", 1, none, none⟩ [] "https://a.com/x"
    ⟨"https://a.com/x", "A1", "c", 1, none, none⟩ rfl (by decide) (by decide) (by decide)
